import Mathlib

/-!
Verification development for the EJSON module (src/lib/EJSON.js).

The module is embedded shallowly.  JavaScript runtime values that the module
can touch are modelled by the inductive type `JSValue`: the JSON shapes
(null, booleans, numbers, strings, arrays, string-keyed objects) plus the
in-memory extended-type instances the module distinguishes at runtime
(`Date` and `RegExp` instances, and the BSON driver instances that carry a
`_bsontype` tag on their prototype).  JavaScript numbers are modelled as
integers; no claim in this development depends on fractional values.
JavaScript property access, truthiness, lodash `isArray` / `isObjectLike` /
`map` / `mapValues`, and the possibility of a thrown exception (modelled by
`Except`) are each given explicit definitions below, next to the function
that uses them.

External collaborators (the `z-schema` validation engine, `JSON.parse`, and
the `mongodb-extended-json` codec) are not part of the repository: the
functions under verification are parameterised over them (`Externals`,
`Engine`), and concrete instantiations used by witnesses are modelled from
the spec and marked as such.
-/

namespace EJSONSpec

/-- A JavaScript runtime value as seen by the EJSON module: the JSON shapes
plus extended-type instances.  `bsonInst tag fields` models a BSON driver
instance whose prototype carries `_bsontype = tag` and whose enumerable own
properties are `fields`; `dateInst` and `regexInst` model `Date` and
`RegExp` instances (which have no enumerable own properties).
`protoMember name` models the value reached when bracket access on an
object literal falls through to the inherited `Object.prototype` member
`name`: a built-in function (typeof `function`, hence truthy, not
object-like, not an array), or, for `__proto__`, the `Object.prototype`
object itself; it is kept opaque because no verified code path inspects
the replacement value further. -/
inductive JSValue where
  | undefined
  | null
  | bool (b : Bool)
  | num (n : Int)
  | str (s : String)
  | arr (elems : List JSValue)
  | obj (fields : List (String × JSValue))
  | dateInst (ms : Int)
  | regexInst (source flags : String)
  | bsonInst (tag : String) (fields : List (String × JSValue))
  | protoMember (name : String)
  deriving Repr

mutual

/-- Boolean equality on `JSValue`, used to derive decidable equality. -/
def beqJS : JSValue → JSValue → Bool
  | .undefined, .undefined => true
  | .null, .null => true
  | .bool a, .bool b => a == b
  | .num a, .num b => a == b
  | .str a, .str b => a == b
  | .arr a, .arr b => beqList a b
  | .obj a, .obj b => beqFields a b
  | .dateInst a, .dateInst b => a == b
  | .regexInst a b, .regexInst c d => a == c && b == d
  | .bsonInst t a, .bsonInst u b => t == u && beqFields a b
  | .protoMember a, .protoMember b => a == b
  | _, _ => false

/-- Pointwise `beqJS` on lists of values. -/
def beqList : List JSValue → List JSValue → Bool
  | [], [] => true
  | a :: as, b :: bs => beqJS a b && beqList as bs
  | _, _ => false

/-- Pointwise `beqJS` on association lists. -/
def beqFields : List (String × JSValue) → List (String × JSValue) → Bool
  | [], [] => true
  | (k, a) :: as, (l, b) :: bs => k == l && beqJS a b && beqFields as bs
  | _, _ => false

end

mutual

/-- `beqJS` decides equality. -/
def beqJS_iff : ∀ a b : JSValue, beqJS a b = true ↔ a = b
  | .undefined, b => by cases b <;> simp [beqJS]
  | .null, b => by cases b <;> simp [beqJS]
  | .bool a, b => by cases b <;> simp [beqJS]
  | .num a, b => by cases b <;> simp [beqJS]
  | .str a, b => by cases b <;> simp [beqJS]
  | .arr a, b => by cases b <;> simp [beqJS, beqList_iff a]
  | .obj a, b => by cases b <;> simp [beqJS, beqFields_iff a]
  | .dateInst a, b => by cases b <;> simp [beqJS]
  | .regexInst a c, b => by cases b <;> simp [beqJS]
  | .bsonInst t a, b => by cases b <;> simp [beqJS, beqFields_iff a]
  | .protoMember a, b => by cases b <;> simp [beqJS]

/-- `beqList` decides equality. -/
def beqList_iff : ∀ a b : List JSValue, beqList a b = true ↔ a = b
  | [], [] => by simp [beqList]
  | [], _ :: _ => by simp [beqList]
  | _ :: _, [] => by simp [beqList]
  | x :: xs, y :: ys => by
      simp only [beqList, Bool.and_eq_true, List.cons.injEq]
      exact and_congr (beqJS_iff x y) (beqList_iff xs ys)

/-- `beqFields` decides equality. -/
def beqFields_iff : ∀ a b : List (String × JSValue), beqFields a b = true ↔ a = b
  | [], [] => by simp [beqFields]
  | [], _ :: _ => by simp [beqFields]
  | _ :: _, [] => by simp [beqFields]
  | (k, x) :: xs, (l, y) :: ys => by
      simp only [beqFields, Bool.and_eq_true, List.cons.injEq, Prod.mk.injEq, beq_iff_eq,
        and_assoc]
      exact and_congr Iff.rfl (and_congr (beqJS_iff x y) (beqFields_iff xs ys))

end

instance : DecidableEq JSValue := fun a b =>
  decidable_of_iff (beqJS a b = true) (beqJS_iff a b)

instance {ε α : Type} [DecidableEq ε] [DecidableEq α] : DecidableEq (Except ε α) :=
  fun a b =>
    match a, b with
    | .ok x, .ok y => decidable_of_iff (x = y) (by simp)
    | .error x, .error y => decidable_of_iff (x = y) (by simp)
    | .ok _, .error _ => isFalse (by simp)
    | .error _, .ok _ => isFalse (by simp)

/-- First-match lookup in a JavaScript object field list (own property
lookup; JavaScript objects cannot hold a key twice, so field lists of
interest are duplicate-free and first-match lookup is exact). -/
def lookupF : List (String × JSValue) → String → Option JSValue
  | [], _ => none
  | (l, v) :: rest, k => if l = k then some v else lookupF rest k

/-- JavaScript truthiness of a modelled value (`undefined`, `null`,
`false`, `0` and the empty string are falsy; everything else, including
every object, is truthy).  `NaN` is not modelled. -/
def truthy : JSValue → Bool
  | .undefined => false
  | .null => false
  | .bool b => b
  | .num n => n != 0
  | .str s => s ≠ ""
  | _ => true

/-- JavaScript property read `v[k]` on a receiver that is not
`null`/`undefined`: own-property lookup on objects, the prototype
`_bsontype` tag on BSON driver instances, and `undefined` on primitives
and on absent keys.  (Exotic string/array index properties are not
modelled; no code under verification reads them.)  Reads guarded in the
source by `&&` so that the receiver may be `undefined` are modelled by
this total function returning `undefined`, which the guard would have
produced anyway. -/
def getProp (v : JSValue) (k : String) : JSValue :=
  match v with
  | .obj fs => (lookupF fs k).getD .undefined
  | .bsonInst tag fs =>
      if k = "_bsontype" then .str tag else (lookupF fs k).getD .undefined
  | _ => .undefined

/-- JavaScript property read `v._bsontype` that can throw: reading any
property of `null` or `undefined` raises a TypeError. -/
def bsontypeOf : JSValue → Except String JSValue
  | .undefined => .error "TypeError: Cannot read properties of undefined"
  | .null => .error "TypeError: Cannot read properties of null"
  | v => .ok (getProp v "_bsontype")

/-- lodash `_.isObjectLike`: true for every value of type object other
than `null` (plain objects, arrays, `Date`, `RegExp` and BSON driver
instances). -/
def isObjectLike : JSValue → Bool
  | .arr _ => true
  | .obj _ => true
  | .dateInst _ => true
  | .regexInst _ _ => true
  | .bsonInst _ _ => true
  | _ => false

/-- `isDate` (source line 140): `obj instanceof Date`.  `instanceof`
never throws. -/
def isDate (obj : JSValue) : Except String Bool :=
  .ok (match obj with | .dateInst _ => true | _ => false)

/-- `isDBRef` (source line 147): `obj._bsontype === 'DBRef'`. -/
def isDBRef (obj : JSValue) : Except String Bool :=
  (bsontypeOf obj).map (fun t => decide (t = .str "DBRef"))

/-- `isMaxKey` (source line 154): `obj._bsontype === 'MaxKey'`. -/
def isMaxKey (obj : JSValue) : Except String Bool :=
  (bsontypeOf obj).map (fun t => decide (t = .str "MaxKey"))

/-- `isMinKey` (source line 161): `obj._bsontype === 'MinKey'`. -/
def isMinKey (obj : JSValue) : Except String Bool :=
  (bsontypeOf obj).map (fun t => decide (t = .str "MinKey"))

/-- `isLong` (source line 168): `obj._bsontype === 'Long'`. -/
def isLong (obj : JSValue) : Except String Bool :=
  (bsontypeOf obj).map (fun t => decide (t = .str "Long"))

/-- `isObjectId` (source line 175): `obj._bsontype === 'ObjectID'` (the
driver tag spells ID, not Id). -/
def isObjectId (obj : JSValue) : Except String Bool :=
  (bsontypeOf obj).map (fun t => decide (t = .str "ObjectID"))

/-- `isRegex` (source line 182): `obj instanceof RegExp`. -/
def isRegex (obj : JSValue) : Except String Bool :=
  .ok (match obj with | .regexInst _ _ => true | _ => false)

/-- `isTimestamp` (source line 189): `obj._bsontype === 'Timestamp'`. -/
def isTimestamp (obj : JSValue) : Except String Bool :=
  (bsontypeOf obj).map (fun t => decide (t = .str "Timestamp"))

/-- `isUndefined` (source line 196): `obj === undefined`. -/
def isUndefined (obj : JSValue) : Except String Bool :=
  .ok (decide (obj = .undefined))

/-- Catalog fragment `ejsonSchemas.Date` (source lines 54-61). -/
def dateSchemaJ : JSValue :=
  .obj [("type", .str "object"),
        ("required", .arr [.str "$date"]),
        ("properties", .obj [("$date", .obj [("type", .str "string")])]),
        ("additionalProperties", .bool false)]

/-- Catalog fragment `ejsonSchemas.DBRef` (source lines 62-70); `$id` is
deliberately unconstrained (empty schema). -/
def dbrefSchemaJ : JSValue :=
  .obj [("type", .str "object"),
        ("required", .arr [.str "$ref"]),
        ("properties", .obj [("$ref", .obj [("type", .str "string")]),
                             ("$id", .obj [])]),
        ("additionalProperties", .bool false)]

/-- Catalog fragment `ejsonSchemas.MaxKey` (source lines 71-78). -/
def maxKeySchemaJ : JSValue :=
  .obj [("type", .str "object"),
        ("required", .arr [.str "$maxKey"]),
        ("properties", .obj [("$maxKey", .obj [("type", .str "number"),
                                               ("minimum", .num 1),
                                               ("maximum", .num 1)])]),
        ("additionalProperties", .bool false)]

/-- Catalog fragment `ejsonSchemas.MinKey` (source lines 79-86). -/
def minKeySchemaJ : JSValue :=
  .obj [("type", .str "object"),
        ("required", .arr [.str "$minKey"]),
        ("properties", .obj [("$minKey", .obj [("type", .str "number"),
                                               ("minimum", .num 1),
                                               ("maximum", .num 1)])]),
        ("additionalProperties", .bool false)]

/-- Catalog fragment `ejsonSchemas.Long` (source lines 87-94). -/
def longSchemaJ : JSValue :=
  .obj [("type", .str "object"),
        ("required", .arr [.str "$numberLong"]),
        ("properties", .obj [("$numberLong", .obj [("type", .str "string")])]),
        ("additionalProperties", .bool false)]

/-- Catalog fragment `ejsonSchemas.ObjectId` (source lines 95-102). -/
def objectIdSchemaJ : JSValue :=
  .obj [("type", .str "object"),
        ("required", .arr [.str "$oid"]),
        ("properties", .obj [("$oid", .obj [("type", .str "string")])]),
        ("additionalProperties", .bool false)]

/-- Catalog fragment `ejsonSchemas.Regex` (source lines 103-111). -/
def regexSchemaJ : JSValue :=
  .obj [("type", .str "object"),
        ("required", .arr [.str "$regex"]),
        ("properties", .obj [("$regex", .obj [("type", .str "string")]),
                             ("$options", .obj [("type", .str "string")])]),
        ("additionalProperties", .bool false)]

/-- The inner `$timestamp` value schema of `ejsonSchemas.Timestamp`
(source lines 116-123): `t` and `i` typed as numbers, no additional
keys, and no `required` list. -/
def timestampInnerSchemaJ : JSValue :=
  .obj [("type", .str "object"),
        ("properties", .obj [("t", .obj [("type", .str "number")]),
                             ("i", .obj [("type", .str "number")])]),
        ("additionalProperties", .bool false)]

/-- Catalog fragment `ejsonSchemas.Timestamp` (source lines 112-126). -/
def timestampSchemaJ : JSValue :=
  .obj [("type", .str "object"),
        ("required", .arr [.str "$timestamp"]),
        ("properties", .obj [("$timestamp", timestampInnerSchemaJ)]),
        ("additionalProperties", .bool false)]

/-- Catalog fragment `ejsonSchemas.Undefined` (source lines 127-134). -/
def undefinedSchemaJ : JSValue :=
  .obj [("type", .str "object"),
        ("required", .arr [.str "$undefined"]),
        ("properties", .obj [("$undefined", .obj [("type", .str "boolean")])]),
        ("additionalProperties", .bool false)]

/-- The `ejsonSchemas` catalog (source lines 53-135), in source order. -/
def ejsonSchemas : List (String × JSValue) :=
  [("Date", dateSchemaJ),
   ("DBRef", dbrefSchemaJ),
   ("MaxKey", maxKeySchemaJ),
   ("MinKey", minKeySchemaJ),
   ("Long", longSchemaJ),
   ("ObjectId", objectIdSchemaJ),
   ("Regex", regexSchemaJ),
   ("Timestamp", timestampSchemaJ),
   ("Undefined", undefinedSchemaJ)]

mutual

/-- JavaScript string coercion of a value used as a bracket-access key
(ToPropertyKey followed by ToString): strings are themselves, numbers
print in decimal, booleans as `true`/`false`, plain objects as
`[object Object]`, arrays via `Array.prototype.toString` (comma join),
and a `RegExp` as `/source/flags`.  The string forms of `Date` and BSON
driver instances are environment- and driver-dependent (human-readable
date text, hex object-id digits, decimal long digits, or
`[object Object]`); all of them contain characters or shapes that no
catalog name and no `Object.prototype` member name has, so the model
uses placeholder forms containing a space and parentheses, which
preserve exactly that non-collision property. -/
def jsToStringKey : JSValue → String
  | .undefined => "undefined"
  | .null => "null"
  | .bool true => "true"
  | .bool false => "false"
  | .num n => toString n
  | .str s => s
  | .arr es => jsJoinKey es
  | .obj _ => "[object Object]"
  | .dateInst ms => "(Date instance " ++ toString ms ++ ")"
  | .regexInst src fl => "/" ++ src ++ "/" ++ fl
  | .bsonInst tag _ => "(" ++ tag ++ " instance)"
  | .protoMember name => "(builtin " ++ name ++ ")"

/-- `Array.prototype.toString`: the comma join of the element strings,
where `null` and `undefined` elements contribute the empty string. -/
def jsJoinKey : List JSValue → String
  | [] => ""
  | [.undefined] => ""
  | [.null] => ""
  | [v] => jsToStringKey v
  | .undefined :: vs => "," ++ jsJoinKey vs
  | .null :: vs => "," ++ jsJoinKey vs
  | v :: vs => jsToStringKey v ++ "," ++ jsJoinKey vs

end

/-- The own property names of `Object.prototype` in a standard
JavaScript environment (Node.js): eleven built-in function members plus
the `__proto__` accessor.  Every one of them is reachable by bracket
access on the `ejsonSchemas` object literal and yields a truthy value
(a function, or `Object.prototype` itself for `__proto__`). -/
def objectPrototypeMembers : List String :=
  ["constructor", "hasOwnProperty", "isPrototypeOf", "propertyIsEnumerable",
   "toLocaleString", "toString", "valueOf", "__defineGetter__", "__defineSetter__",
   "__lookupGetter__", "__lookupSetter__", "__proto__"]

/-- Bracket access `self.ejsonSchemas[key]` for an already-coerced
string key: own-key lookup over the nine catalog entries first, then
the prototype chain — an object literal inherits from
`Object.prototype`, so its member names yield truthy inherited values
instead of `undefined`. -/
def ejsonSchemasIndex (key : String) : Option JSValue :=
  match lookupF ejsonSchemas key with
  | some frag => some frag
  | none =>
      if key ∈ objectPrototypeMembers then some (.protoMember key) else none

/-- The catalog-replacement test of `toJSONSchema` (source lines 320-324):
`if (schema.type) { var r = self.ejsonSchemas[schema.type]; if (r) return r }`.
Yields the replacement when the `type` property is truthy and its coerced
key reaches a truthy value by bracket access on `ejsonSchemas` — a
catalog fragment, or an inherited `Object.prototype` member — and `none`
otherwise. -/
def catalogReplacement (t : JSValue) : Option JSValue :=
  if truthy t then
    match ejsonSchemasIndex (jsToStringKey t) with
    | some r => if truthy r then some r else none
    | none => none
  else none

mutual

/-- `toJSONSchema` (source lines 310-332).  `_.isArray` is tested first,
then `_.isObjectLike`; `_.mapValues` over an object-like value builds a
plain object from its enumerable own properties, so a `Date` or `RegExp`
instance used as a schema node becomes the empty plain object. -/
def toJSONSchema : JSValue → JSValue
  | .arr elems => .arr (toJSONSchemaList elems)
  | .obj fields =>
      match catalogReplacement ((lookupF fields "type").getD .undefined) with
      | some frag => frag
      | none => .obj (toJSONSchemaFields fields)
  | .bsonInst _ fields =>
      match catalogReplacement ((lookupF fields "type").getD .undefined) with
      | some frag => frag
      | none => .obj (toJSONSchemaFields fields)
  | .dateInst _ => .obj []
  | .regexInst _ _ => .obj []
  | v => v

/-- `_.map` of `toJSONSchema` over an array (source lines 313-317). -/
def toJSONSchemaList : List JSValue → List JSValue
  | [] => []
  | v :: vs => toJSONSchema v :: toJSONSchemaList vs

/-- `_.mapValues` of `toJSONSchema` over object fields (source lines
326-328). -/
def toJSONSchemaFields : List (String × JSValue) → List (String × JSValue)
  | [] => []
  | (k, v) :: rest => (k, toJSONSchema v) :: toJSONSchemaFields rest

end

/-- The external collaborators that `coerce` calls (source lines 259,
264, 269): the JavaScript `JSON.parse` builtin and the
`mongodb-extended-json` `deserialize` decoder.  Both may throw, modelled
by `Except`. -/
structure Externals where
  jsonParse : String → Except String JSValue
  deserialize : JSValue → Except String JSValue

mutual

/-- `coerce` (source lines 231-276).  A thrown exception from
`JSON.parse` or `EJSON.deserialize` propagates as the `Except` error.
The object-like branch is `_.mapValues`, which rebuilds the value as a
plain object from its enumerable own properties: a `Date` or `RegExp`
instance (no enumerable own properties) becomes the empty plain object,
and a BSON driver instance becomes a plain object over its own fields. -/
def coerce (E : Externals) (obj schema : JSValue) : Except String JSValue :=
  if truthy schema = false then .ok obj
  else
    match obj with
    | .arr elems => (coerceList E elems (getProp schema "items")).map JSValue.arr
    | .obj fields =>
        (coerceFields E fields (getProp schema "properties")).map JSValue.obj
    | .bsonInst _ fields =>
        (coerceFields E fields (getProp schema "properties")).map JSValue.obj
    | .dateInst _ => .ok (.obj [])
    | .regexInst _ _ => .ok (.obj [])
    | .str s =>
        let t := getProp schema "type"
        if truthy t then
          if t = .str "number" ∨ t = .str "integer" ∨ t = .str "boolean" then
            E.jsonParse s
          else if t = .str "ObjectId" then
            E.deserialize (.obj [("$oid", .str s)])
          else if t = .str "Date" then
            E.deserialize (.obj [("$date", .str s)])
          else .ok (.str s)
        else .ok (.str s)
    | v => .ok v

/-- `_.map` in the array branch of `coerce` (source lines 240-244):
every element is coerced against the same `schema.items` node; the first
thrown exception aborts the whole map. -/
def coerceList (E : Externals) : List JSValue → JSValue → Except String (List JSValue)
  | [], _ => .ok []
  | v :: vs, itemSchema =>
      match coerce E v itemSchema with
      | .error e => .error e
      | .ok v2 =>
          match coerceList E vs itemSchema with
          | .error e => .error e
          | .ok vs2 => .ok (v2 :: vs2)

/-- `_.mapValues` in the object branch of `coerce` (source lines
247-251): each field value is coerced against
`schema.properties[key]`. -/
def coerceFields (E : Externals) :
    List (String × JSValue) → JSValue → Except String (List (String × JSValue))
  | [], _ => .ok []
  | (k, v) :: rest, propsSchema =>
      match coerce E v (getProp propsSchema k) with
      | .error e => .error e
      | .ok v2 =>
          match coerceFields E rest propsSchema with
          | .error e => .error e
          | .ok rest2 => .ok ((k, v2) :: rest2)

end

mutual

/-- Modelled from the spec: the external `EJSON.stringify` serializer
(spec section 6, a pass-through collaborator outside the core).  It is
used by `validate` only to embed the schema and document inside the
descriptive error message; the theorems depend only on the message being
built from these serializations, not on their exact text. -/
def stringify : JSValue → String
  | .undefined => "undefined"
  | .null => "null"
  | .bool true => "true"
  | .bool false => "false"
  | .num n => toString n
  | .str s => "\"" ++ s ++ "\""
  | .arr es => "[" ++ stringifyList es ++ "]"
  | .obj fs => "\x7b" ++ stringifyFields fs ++ "\x7d"
  | .dateInst ms => "\x7b\"$date\":" ++ toString ms ++ "\x7d"
  | .regexInst src fl =>
      "\x7b\"$regex\":\"" ++ src ++ "\",\"$options\":\"" ++ fl ++ "\"\x7d"
  | .bsonInst tag fs => "\x7b\"" ++ tag ++ "\":" ++ stringifyFields fs ++ "\x7d"
  | .protoMember _ => "undefined"

/-- Comma-joined serialization of array elements. -/
def stringifyList : List JSValue → String
  | [] => ""
  | [v] => stringify v
  | v :: vs => stringify v ++ "," ++ stringifyList vs

/-- Comma-joined serialization of object fields. -/
def stringifyFields : List (String × JSValue) → String
  | [] => ""
  | [(k, v)] => "\"" ++ k ++ "\":" ++ stringify v
  | (k, v) :: fs => "\"" ++ k ++ "\":" ++ stringify v ++ "," ++ stringifyFields fs

end

/-- The result object built by `validate` (source lines 287-304):
`result.valid` always set, `result.error` set only on the invalid path. -/
structure ValidationResult where
  valid : Bool
  error : Option String
  deriving Repr, DecidableEq

/-- How a `validate` call can throw: either the deliberate wrapped
descriptive error built in the catch block (source lines 295-298), or the
TypeError raised at line 301 when `getLastErrors()` is empty and
`[0].message` reads a property of `undefined` — that read happens outside
the try/catch. -/
inductive VError where
  | wrapped (msg : String)
  | typeErrorEmptyErrors
  deriving Repr, DecidableEq

/-- The external `z-schema` engine as `validate` uses it (source lines
283, 289, 293, 301): `validateSchema`, `validate` (both may throw), and
the error list `getLastErrors()` left behind by the last `validate` call,
modelled as the second component of its result. -/
structure Engine where
  validateSchema : JSValue → Except String Bool
  runValidate : JSValue → JSValue → Except String (Bool × List String)

/-- The descriptive message built in the catch block of `validate`
(source lines 295-298). -/
def wrapMsg (schema obj : JSValue) (reason : String) : String :=
  "Exception in compiling schema or validating ejson schema: " ++ stringify schema ++
    " data: " ++ stringify obj ++ " -- Reason: " ++ reason

/-- `validate` (source lines 281-305).  The try block covers
`validateSchema`, the `throw new Error("Invalid schema.")`, and the
engine `validate` call; the catch rethrows the single wrapped descriptive
error.  Reading `getLastErrors()[0].message` happens after the try/catch:
with an empty error list it raises an unwrapped TypeError. -/
def validate (E : Engine) (obj schema : JSValue) : Except VError ValidationResult :=
  let s := toJSONSchema schema
  let attempt : Except String (Bool × List String) :=
    match E.validateSchema s with
    | .error e => .error e
    | .ok isSchemaValid =>
        if isSchemaValid = false then .error "Invalid schema."
        else E.runValidate obj s
  match attempt with
  | .error e => .error (.wrapped (wrapMsg s obj e))
  | .ok (valid, errs) =>
      if valid then .ok ⟨true, none⟩
      else
        match errs with
        | [] => .error .typeErrorEmptyErrors
        | m :: _ => .ok ⟨false, some m⟩

/-- Modelled from the spec: the external `JSON.parse` builtin (spec
section 4.4, rule 4), restricted to the scalar literals exercised by the
theorems below: the keywords `true`, `false`, `null` and optionally
signed integer numerals parse to the corresponding value; every other
string is a parse error.  (Object, array, string and fractional literals
are not needed by any statement in this file.) -/
def parseDigits : List Char → Nat → Option Nat
  | [], acc => some acc
  | c :: cs, acc =>
      if c.isDigit then parseDigits cs (acc * 10 + (c.toNat - 48)) else none

/-- Decimal integer numerals (with optional leading minus sign), the
number syntax `jsonParseModel` accepts. -/
def parseJSONInt (s : String) : Option Int :=
  match s.data with
  | [] => none
  | '-' :: [] => none
  | '-' :: cs => (parseDigits cs 0).map (fun n => -(n : Int))
  | cs => (parseDigits cs 0).map (fun n => (n : Int))

def jsonParseModel (s : String) : Except String JSValue :=
  if s = "true" then .ok (.bool true)
  else if s = "false" then .ok (.bool false)
  else if s = "null" then .ok .null
  else
    match parseJSONInt s with
    | some n => .ok (.num n)
    | none => .error ("Unexpected token in JSON: " ++ s)

/-- Modelled from the spec: the external `mongodb-extended-json`
decoder (spec section 6), restricted to the two wire forms `coerce`
feeds it: `[$oid: s]` decodes to an ObjectId driver instance and
`[$date: s]` to a `Date` instance (the millisecond value of the decoded
date is abstracted as `0`; no theorem depends on it). -/
def deserializeModel : JSValue → Except String JSValue
  | .obj [("$oid", .str s)] => .ok (.bsonInst "ObjectID" [("id", .str s)])
  | .obj [("$date", .str _)] => .ok (.dateInst 0)
  | v => .ok v

/-- One concrete instantiation of the external collaborators of
`coerce`, used by closed witnesses and counterexamples. -/
def extModel : Externals :=
  ⟨jsonParseModel, deserializeModel⟩

/-- Which JSON-Schema primitive `type` names accept which documents
(draft-4 semantics of the external engine; `number` accepts every
modelled numeral since numbers are modelled as integers). -/
def typeMatches : String → JSValue → Bool
  | "object", .obj _ => true
  | "array", .arr _ => true
  | "string", .str _ => true
  | "number", .num _ => true
  | "integer", .num _ => true
  | "boolean", .bool _ => true
  | "null", .null => true
  | _, _ => false

/-- Modelled from the spec: the external `z-schema` validation engine
(spec section 6), on the schema vocabulary actually reachable from the
nine catalog fragments: `type`, `required`, `properties`,
`additionalProperties: false`, `minimum`, `maximum`; an empty schema
object accepts everything.  Recursion is bounded by an explicit fuel
which every statement below instantiates far above the catalog depth
(out of fuel rejects). -/
def validateJS : Nat → JSValue → JSValue → Bool
  | 0, _, _ => false
  | fuel + 1, .obj sfields, doc =>
      (match lookupF sfields "type" with
       | some (.str t) => typeMatches t doc
       | _ => true) &&
      (match lookupF sfields "required", doc with
       | some (.arr names), .obj dfs =>
           names.all fun n =>
             match n with
             | .str k => (lookupF dfs k).isSome
             | _ => true
       | _, _ => true) &&
      (match lookupF sfields "properties", doc with
       | some (.obj props), .obj dfs =>
           props.all fun kv =>
             match lookupF dfs kv.1 with
             | some v => validateJS fuel kv.2 v
             | none => true
       | _, _ => true) &&
      (match lookupF sfields "additionalProperties", doc with
       | some (.bool false), .obj dfs =>
           dfs.all fun kv =>
             match lookupF sfields "properties" with
             | some (.obj props) => (lookupF props kv.1).isSome
             | _ => false
       | _, _ => true) &&
      (match lookupF sfields "minimum", doc with
       | some (.num m), .num d => decide (m ≤ d)
       | _, _ => true) &&
      (match lookupF sfields "maximum", doc with
       | some (.num m), .num d => decide (d ≤ m)
       | _, _ => true)
  | _ + 1, _, _ => true

/-- Modelled from the spec: an `Engine` built from `validateJS` that
satisfies the documented engine contract — a false validation result
always leaves at least one retrievable error message. -/
def engineJS : Engine :=
  ⟨fun _ => .ok true,
   fun o s =>
     let ok := validateJS 32 s o
     .ok (ok, if ok then [] else ["ejson validation error"])⟩

/-! Helper lemmas shared by the claim theorems. -/

theorem toJSONSchemaList_eq_map (es : List JSValue) :
    toJSONSchemaList es = es.map toJSONSchema := by
  induction es with
  | nil => simp [toJSONSchemaList]
  | cons v vs ih => simp [toJSONSchemaList, ih]

theorem toJSONSchemaFields_eq_map (fs : List (String × JSValue)) :
    toJSONSchemaFields fs = fs.map (fun kv => (kv.1, toJSONSchema kv.2)) := by
  induction fs with
  | nil => simp [toJSONSchemaFields]
  | cons kv rest ih => cases kv; simp [toJSONSchemaFields, ih]

theorem coerceList_ok_length (E : Externals) :
    ∀ (es : List JSValue) (sch : JSValue) (es2 : List JSValue),
      coerceList E es sch = .ok es2 → es2.length = es.length := by
  intro es
  induction es with
  | nil =>
      intro sch es2 h
      simp only [coerceList] at h
      cases h
      rfl
  | cons v vs ih =>
      intro sch es2 h
      simp only [coerceList] at h
      cases hc : coerce E v sch with
      | error e => rw [hc] at h; cases h
      | ok v2 =>
          rw [hc] at h
          cases hr : coerceList E vs sch with
          | error e => rw [hr] at h; cases h
          | ok vs2 =>
              rw [hr] at h
              cases h
              simp [ih sch vs2 hr]

theorem coerceFields_ok_keys (E : Externals) :
    ∀ (fs : List (String × JSValue)) (sch : JSValue) (fs2 : List (String × JSValue)),
      coerceFields E fs sch = .ok fs2 → fs2.map Prod.fst = fs.map Prod.fst := by
  intro fs
  induction fs with
  | nil =>
      intro sch fs2 h
      simp only [coerceFields] at h
      cases h
      rfl
  | cons kv rest ih =>
      obtain ⟨k, v⟩ := kv
      intro sch fs2 h
      simp only [coerceFields] at h
      cases hc : coerce E v (getProp sch k) with
      | error e => rw [hc] at h; cases h
      | ok v2 =>
          rw [hc] at h
          cases hr : coerceFields E rest sch with
          | error e => rw [hr] at h; cases h
          | ok rest2 =>
              rw [hr] at h
              cases h
              simp [ih sch rest2 hr]

mutual

/-- A pure structural schema value: built of plain objects, arrays and
primitives only (no extended-type instance and no inherited prototype
member), where no object node carries a `type` field whose value
triggers a replacement — neither a catalog entry nor a truthy inherited
`Object.prototype` member.  Every schema built only of objects, arrays
and primitive type names (`string`, `number`, `integer`, `boolean`,
`object`, `array`, `null`) satisfies this predicate, since none of those
names indexes a catalog entry or a prototype member. -/
def pureStructural : JSValue → Bool
  | .arr es => pureStructuralList es
  | .obj fs =>
      (catalogReplacement ((lookupF fs "type").getD .undefined)).isNone &&
        pureStructuralFields fs
  | .dateInst _ => false
  | .regexInst _ _ => false
  | .bsonInst _ _ => false
  | .protoMember _ => false
  | _ => true

/-- `pureStructural` on every array element. -/
def pureStructuralList : List JSValue → Bool
  | [] => true
  | v :: vs => pureStructural v && pureStructuralList vs

/-- `pureStructural` on every field value. -/
def pureStructuralFields : List (String × JSValue) → Bool
  | [] => true
  | (_, v) :: fs => pureStructural v && pureStructuralFields fs

end

mutual

/-- On pure structural schemas the rewriter is the identity. -/
def toJSONSchema_id_of_pureStructural :
    ∀ s : JSValue, pureStructural s = true → toJSONSchema s = s
  | .undefined, _ => rfl
  | .null, _ => rfl
  | .bool _, _ => rfl
  | .num _, _ => rfl
  | .str _, _ => rfl
  | .arr es, h => by
      simp only [toJSONSchema]
      rw [toJSONSchemaList_id_of_pureStructural es (by simpa [pureStructural] using h)]
  | .obj fs, h => by
      simp only [pureStructural, Bool.and_eq_true, Option.isNone_iff_eq_none] at h
      simp only [toJSONSchema, h.1]
      rw [toJSONSchemaFields_id_of_pureStructural fs h.2]
  | .dateInst _, h => by simp [pureStructural] at h
  | .regexInst _ _, h => by simp [pureStructural] at h
  | .bsonInst _ _, h => by simp [pureStructural] at h
  | .protoMember _, h => by simp [pureStructural] at h

/-- List version of `toJSONSchema_id_of_pureStructural`. -/
def toJSONSchemaList_id_of_pureStructural :
    ∀ es : List JSValue, pureStructuralList es = true → toJSONSchemaList es = es
  | [], _ => rfl
  | v :: vs, h => by
      simp only [pureStructuralList, Bool.and_eq_true] at h
      simp only [toJSONSchemaList]
      rw [toJSONSchema_id_of_pureStructural v h.1,
        toJSONSchemaList_id_of_pureStructural vs h.2]

/-- Field-list version of `toJSONSchema_id_of_pureStructural`. -/
def toJSONSchemaFields_id_of_pureStructural :
    ∀ fs : List (String × JSValue), pureStructuralFields fs = true → toJSONSchemaFields fs = fs
  | [], _ => rfl
  | (k, v) :: fs, h => by
      simp only [pureStructuralFields, Bool.and_eq_true] at h
      simp only [toJSONSchemaFields]
      rw [toJSONSchema_id_of_pureStructural v h.1,
        toJSONSchemaFields_id_of_pureStructural fs h.2]

end

/-- Exhaustive case analysis of a `validate` call: success, ordinary
failure with a first error message, a wrapped exception, or the
empty-error-list TypeError escaping unwrapped. -/
theorem validate_channel_cases (E : Engine) (obj schema : JSValue) :
    validate E obj schema = .ok ⟨true, none⟩ ∨
    (∃ m rest, E.runValidate obj (toJSONSchema schema) = .ok (false, m :: rest) ∧
        validate E obj schema = .ok ⟨false, some m⟩) ∨
    (∃ reason,
        validate E obj schema = .error (.wrapped (wrapMsg (toJSONSchema schema) obj reason))) ∨
    (E.runValidate obj (toJSONSchema schema) = .ok (false, []) ∧
        validate E obj schema = .error .typeErrorEmptyErrors) := by
  cases hv : E.validateSchema (toJSONSchema schema) with
  | error e =>
      refine Or.inr (Or.inr (Or.inl ⟨e, ?_⟩))
      simp [validate, hv]
  | ok b =>
      cases b with
      | false =>
          refine Or.inr (Or.inr (Or.inl ⟨"Invalid schema.", ?_⟩))
          simp [validate, hv]
      | true =>
          cases hr : E.runValidate obj (toJSONSchema schema) with
          | error e =>
              refine Or.inr (Or.inr (Or.inl ⟨e, ?_⟩))
              simp [validate, hv, hr]
          | ok p =>
              obtain ⟨valid, errs⟩ := p
              cases valid with
              | true =>
                  refine Or.inl ?_
                  simp [validate, hv, hr]
              | false =>
                  cases errs with
                  | nil =>
                      refine Or.inr (Or.inr (Or.inr ⟨rfl, ?_⟩))
                      simp [validate, hv, hr]
                  | cons m rest =>
                      refine Or.inr (Or.inl ⟨m, rest, rfl, ?_⟩)
                      simp [validate, hv, hr]

/-! Claim theorems. -/

/-- C7: whenever the schema argument is absent or falsy, `coerce`
returns its first argument unchanged, whatever its shape — the falsy
check takes precedence over the array, object and string branches (in
particular `coerce obj undefined = obj` for every `obj`). -/
theorem coerce_falsy_schema_identity (E : Externals) (obj schema : JSValue)
    (h : truthy schema = false) : coerce E obj schema = .ok obj := by
  cases obj <;> simp [coerce, h]

/-- C7 witness: the rule applied at a concrete array document and the
absent (`undefined`) schema. -/
theorem coerce_falsy_schema_identity_witness :
    truthy .undefined = false ∧
      coerce extModel (.arr [.str "1", .obj [("a", .num 2)]]) .undefined
        = .ok (.arr [.str "1", .obj [("a", .num 2)]]) :=
  ⟨by decide,
   coerce_falsy_schema_identity extModel (.arr [.str "1", .obj [("a", .num 2)]]) .undefined
     (by decide)⟩

theorem lookupF_mem :
    ∀ (fs : List (String × JSValue)) (k : String) (v : JSValue),
      lookupF fs k = some v → k ∈ fs.map Prod.fst := by
  intro fs
  induction fs with
  | nil => intro k v h; cases h
  | cons kv rest ih =>
      obtain ⟨l, w⟩ := kv
      intro k v h
      simp only [lookupF] at h
      by_cases hl : l = k
      · simp [hl]
      · rw [if_neg hl] at h
        simp [ih k v h]

/-- C3 counterexample: a `type` string that is not a catalog name is not
always kept with its keys — bracket access on the catalog object
literal traverses the prototype chain, so the key `toString` reaches the
truthy inherited `Object.prototype.toString` and the whole node is
replaced by that inherited member, sibling fields discarded. -/
theorem toJSONSchema_unknown_type_prototype_hit :
    toJSONSchema (.obj [("type", .str "toString"), ("extra", .num 5)])
        = .protoMember "toString" ∧
    JSValue.protoMember "toString" ≠ .obj [("type", .str "toString"), ("extra", .num 5)] := by
  decide

/-- C3 (amended): `toJSONSchema` maps arrays element-wise (preserving
order and length); an object node whose `type` field names a catalog
entry is replaced outright by that fragment, sibling fields discarded,
with no recursion into them; an object node whose `type` is a string
that is not a catalog name but is the name of an inherited
`Object.prototype` member (`toString`, `constructor`, `valueOf`, ...)
is likewise replaced outright — by that truthy inherited member, a
prototype-chain artifact of the bracket lookup; an object node whose
`type` triggers neither replacement is kept with all its keys, recursing
into every field value; and a primitive or absent node is returned
unchanged. -/
theorem toJSONSchema_recursion_cases :
    (∀ es : List JSValue, toJSONSchema (.arr es) = .arr (es.map toJSONSchema)) ∧
    (∀ (fields : List (String × JSValue)) (name : String) (frag : JSValue),
        lookupF fields "type" = some (.str name) → lookupF ejsonSchemas name = some frag →
        toJSONSchema (.obj fields) = frag) ∧
    (∀ (fields : List (String × JSValue)) (name : String),
        lookupF fields "type" = some (.str name) → lookupF ejsonSchemas name = none →
        name ∈ objectPrototypeMembers →
        toJSONSchema (.obj fields) = .protoMember name) ∧
    (∀ fields : List (String × JSValue),
        catalogReplacement ((lookupF fields "type").getD .undefined) = none →
        toJSONSchema (.obj fields) = .obj (fields.map (fun kv => (kv.1, toJSONSchema kv.2)))) ∧
    (∀ b, toJSONSchema (.bool b) = .bool b) ∧
    (∀ n, toJSONSchema (.num n) = .num n) ∧
    (∀ s, toJSONSchema (.str s) = .str s) ∧
    toJSONSchema .null = .null ∧
    toJSONSchema .undefined = .undefined := by
  refine ⟨?_, ?_, ?_, ?_, fun b => rfl, fun n => rfl, fun s => rfl, rfl, rfl⟩
  · intro es
    simp [toJSONSchema, toJSONSchemaList_eq_map]
  · intro fields name frag h1 h2
    have hm := lookupF_mem ejsonSchemas name frag h2
    simp only [ejsonSchemas, List.map, List.mem_cons, List.not_mem_nil, or_false] at hm
    rcases hm with rfl | rfl | rfl | rfl | rfl | rfl | rfl | rfl | rfl <;>
      (simp +decide [ejsonSchemas, lookupF] at h2;
       subst h2;
       simp +decide [toJSONSchema, h1, catalogReplacement, ejsonSchemasIndex,
         jsToStringKey, lookupF, ejsonSchemas, truthy, dateSchemaJ, dbrefSchemaJ,
         maxKeySchemaJ, minKeySchemaJ, longSchemaJ, objectIdSchemaJ, regexSchemaJ,
         timestampSchemaJ, undefinedSchemaJ])
  · intro fields name h1 h2 h3
    simp only [objectPrototypeMembers, List.mem_cons, List.not_mem_nil, or_false] at h3
    rcases h3 with rfl | rfl | rfl | rfl | rfl | rfl | rfl | rfl | rfl | rfl | rfl | rfl <;>
      simp +decide [toJSONSchema, h1, catalogReplacement, ejsonSchemasIndex,
        jsToStringKey, lookupF, ejsonSchemas, objectPrototypeMembers, truthy]
  · intro fields h
    simp [toJSONSchema, h, toJSONSchemaFields_eq_map]

/-- C3 witness: a catalog hit discards the sibling field, a prototype
member name is replaced by the inherited member, and a `type` that
triggers no replacement is passed through with recursion. -/
theorem toJSONSchema_recursion_cases_witness :
    toJSONSchema (.obj [("type", .str "MaxKey"), ("extra", .num 5)]) = maxKeySchemaJ ∧
    toJSONSchema (.obj [("type", .str "valueOf")]) = .protoMember "valueOf" ∧
    toJSONSchema (.obj [("type", .str "string")]) = .obj [("type", .str "string")] :=
  ⟨toJSONSchema_recursion_cases.2.1 [("type", .str "MaxKey"), ("extra", .num 5)]
      "MaxKey" maxKeySchemaJ (by decide) (by decide),
   toJSONSchema_recursion_cases.2.2.1 [("type", .str "valueOf")] "valueOf"
      (by decide) (by decide) (by decide),
   by
     have h := toJSONSchema_recursion_cases.2.2.2.1 [("type", .str "string")] (by decide)
     simpa [toJSONSchema] using h⟩

/-- C8: on a pure structural schema (objects, arrays and primitives
only, no extended-type reference) the rewriter returns a deep-equal
value, and is hence idempotent there. -/
theorem toJSONSchema_structural_identity (s : JSValue) (h : pureStructural s = true) :
    toJSONSchema s = s ∧ toJSONSchema (toJSONSchema s) = toJSONSchema s := by
  have h1 := toJSONSchema_id_of_pureStructural s h
  exact ⟨h1, by rw [h1, h1]⟩

/-- C8 witness: identity and idempotence at a concrete structural
schema with nested object, array and primitive nodes. -/
theorem toJSONSchema_structural_identity_witness :
    pureStructural
        (.obj [("type", .str "object"),
               ("properties", .obj [("a", .obj [("type", .str "number")]),
                                    ("b", .obj [("type", .str "array"),
                                                ("items", .obj [("type", .str "string")])])])])
      = true ∧
    (toJSONSchema
        (.obj [("type", .str "object"),
               ("properties", .obj [("a", .obj [("type", .str "number")]),
                                    ("b", .obj [("type", .str "array"),
                                                ("items", .obj [("type", .str "string")])])])])
      = .obj [("type", .str "object"),
              ("properties", .obj [("a", .obj [("type", .str "number")]),
                                   ("b", .obj [("type", .str "array"),
                                               ("items", .obj [("type", .str "string")])])])] ∧
     toJSONSchema (toJSONSchema
        (.obj [("type", .str "object"),
               ("properties", .obj [("a", .obj [("type", .str "number")]),
                                    ("b", .obj [("type", .str "array"),
                                                ("items", .obj [("type", .str "string")])])])]))
      = toJSONSchema
        (.obj [("type", .str "object"),
               ("properties", .obj [("a", .obj [("type", .str "number")]),
                                    ("b", .obj [("type", .str "array"),
                                                ("items", .obj [("type", .str "string")])])])])) :=
  ⟨by decide, toJSONSchema_structural_identity _ (by decide)⟩

/-- C10: the Timestamp fragment constrains `t` and `i` to numbers and
forbids additional keys inside `$timestamp`, but its inner schema has no
`required` list at all, so the document with an empty `$timestamp`
object validates successfully against the shorthand
`[type: Timestamp]`. -/
theorem timestamp_empty_object_accepted :
    validate engineJS (.obj [("$timestamp", .obj [])]) (.obj [("type", .str "Timestamp")])
        = .ok ⟨true, none⟩ ∧
    getProp timestampInnerSchemaJ "required" = .undefined ∧
    getProp (getProp timestampInnerSchemaJ "properties") "t" = .obj [("type", .str "number")] ∧
    getProp (getProp timestampInnerSchemaJ "properties") "i" = .obj [("type", .str "number")] ∧
    getProp timestampInnerSchemaJ "additionalProperties" = .bool false ∧
    getProp (getProp timestampSchemaJ "properties") "$timestamp" = timestampInnerSchemaJ := by
  refine ⟨?_, by decide, by decide, by decide, by decide, by decide⟩
  decide

/-- C2 counterexample: with declared type `number` and the string
`"true"` — not valid JSON for type number, but valid JSON — `coerce`
does not fail with a parse error as the claim requires: it returns the
parsed boolean. -/
theorem coerce_wrong_type_no_parse_failure :
    coerce extModel (.str "true") (.obj [("type", .str "number")]) = .ok (.bool true) ∧
    ∀ e, coerce extModel (.str "true") (.obj [("type", .str "number")]) ≠ .error e := by
  refine ⟨by decide, ?_⟩
  intro e h
  have : (Except.ok (.bool true) : Except String JSValue) = .error e := by
    rw [← h]
    decide
  cases this

/-- C2 (amended): for a string document under a truthy schema node,
declared type `number` / `integer` / `boolean` returns exactly
`JSON.parse` of the string — so a parse error is propagated exactly when
the string is not valid JSON at all, while a string that parses as JSON
of a different runtime type is returned as parsed, without failure;
declared `ObjectId` (resp. `Date`) returns the decoder applied to the
wire form `[$oid: obj]` (resp. `[$date: obj]`); any other or absent type
returns the string unchanged. -/
theorem coerce_string_leaf_cases (E : Externals) (s : String) (schema : JSValue)
    (h : truthy schema = true) :
    (getProp schema "type" = .str "number" ∨ getProp schema "type" = .str "integer" ∨
        getProp schema "type" = .str "boolean" →
      coerce E (.str s) schema = E.jsonParse s) ∧
    (getProp schema "type" = .str "ObjectId" →
      coerce E (.str s) schema = E.deserialize (.obj [("$oid", .str s)])) ∧
    (getProp schema "type" = .str "Date" →
      coerce E (.str s) schema = E.deserialize (.obj [("$date", .str s)])) ∧
    (getProp schema "type" ≠ .str "number" → getProp schema "type" ≠ .str "integer" →
      getProp schema "type" ≠ .str "boolean" → getProp schema "type" ≠ .str "ObjectId" →
      getProp schema "type" ≠ .str "Date" →
      coerce E (.str s) schema = .ok (.str s)) := by
  refine ⟨?_, ?_, ?_, ?_⟩
  · rintro (ht | ht | ht) <;> simp +decide [coerce, h, ht]
  · intro ht
    simp +decide [coerce, h, ht]
  · intro ht
    simp +decide [coerce, h, ht]
  · intro h1 h2 h3 h4 h5
    have hdisj : ¬(getProp schema "type" = .str "number" ∨
        getProp schema "type" = .str "integer" ∨ getProp schema "type" = .str "boolean") := by
      rintro (hh | hh | hh)
      · exact h1 hh
      · exact h2 hh
      · exact h3 hh
    by_cases ht : truthy (getProp schema "type") = true
    · simp [coerce, h, ht, hdisj, h4, h5]
    · simp [coerce, h, ht]

/-- C2 witness: the three string-coercion channels exercised at concrete
inputs through the concrete external collaborators. -/
theorem coerce_string_leaf_cases_witness :
    coerce extModel (.str "42") (.obj [("type", .str "number")]) = extModel.jsonParse "42" ∧
    coerce extModel (.str "507f") (.obj [("type", .str "ObjectId")])
      = extModel.deserialize (.obj [("$oid", .str "507f")]) ∧
    coerce extModel (.str "99") (.obj [("type", .str "Long")]) = .ok (.str "99") :=
  ⟨(coerce_string_leaf_cases extModel "42" (.obj [("type", .str "number")]) (by decide)).1
      (by decide),
   (coerce_string_leaf_cases extModel "507f" (.obj [("type", .str "ObjectId")]) (by decide)).2.1
      (by decide),
   (coerce_string_leaf_cases extModel "99" (.obj [("type", .str "Long")]) (by decide)).2.2.2
      (by decide) (by decide) (by decide) (by decide) (by decide)⟩

/-- C5 counterexample: an already-typed extended-type instance is not
returned unchanged — under a truthy schema node the object-like branch
rebuilds a `Date` instance via `mapValues` into the empty plain object. -/
theorem coerce_date_instance_mangled :
    coerce extModel (.dateInst 0) (.obj [("type", .str "Date")]) = .ok (.obj []) ∧
    JSValue.obj [] ≠ JSValue.dateInst 0 := by decide

/-- C5 (amended): `coerce` never changes the structural shape of plain
objects and arrays (same keys, same length, whenever it succeeds); a
value whose position has no corresponding (truthy) schema node is
returned unchanged; numbers, booleans and null are returned unchanged
under every schema; but an object-like extended-type instance under a
truthy schema node is not returned unchanged — `mapValues` rebuilds it
as a plain object over its enumerable own properties, so a `Date` or
`RegExp` instance becomes the empty plain object and a BSON driver
instance a plain object over its own fields. -/
theorem coerce_shape_behavior (E : Externals) :
    (∀ v schema, truthy schema = false → coerce E v schema = .ok v) ∧
    (∀ schema elems, truthy schema = true →
      (∃ msg, coerce E (.arr elems) schema = .error msg) ∨
      (∃ elems2, coerce E (.arr elems) schema = .ok (.arr elems2) ∧
          elems2.length = elems.length)) ∧
    (∀ schema fields, truthy schema = true →
      (∃ msg, coerce E (.obj fields) schema = .error msg) ∨
      (∃ fields2, coerce E (.obj fields) schema = .ok (.obj fields2) ∧
          fields2.map Prod.fst = fields.map Prod.fst)) ∧
    (∀ schema n, coerce E (.num n) schema = .ok (.num n)) ∧
    (∀ schema b, coerce E (.bool b) schema = .ok (.bool b)) ∧
    (∀ schema, coerce E .null schema = .ok .null) ∧
    (∀ schema ms, truthy schema = true → coerce E (.dateInst ms) schema = .ok (.obj [])) := by
  refine ⟨?_, ?_, ?_, ?_, ?_, ?_, ?_⟩
  · intro v schema h
    cases v <;> simp [coerce, h]
  · intro schema elems h
    simp only [coerce, h]
    cases hc : coerceList E elems (getProp schema "items") with
    | error e => exact Or.inl ⟨e, rfl⟩
    | ok elems2 =>
        exact Or.inr ⟨elems2, rfl, coerceList_ok_length E elems _ elems2 hc⟩
  · intro schema fields h
    simp only [coerce, h]
    cases hc : coerceFields E fields (getProp schema "properties") with
    | error e => exact Or.inl ⟨e, rfl⟩
    | ok fields2 =>
        exact Or.inr ⟨fields2, rfl, coerceFields_ok_keys E fields _ fields2 hc⟩
  · intro schema n
    by_cases h : truthy schema = true <;> simp [coerce, h]
  · intro schema b
    by_cases h : truthy schema = true <;> simp [coerce, h]
  · intro schema
    by_cases h : truthy schema = true <;> simp [coerce, h]
  · intro schema ms h
    simp [coerce, h]

/-- C5 witness: the no-schema rule at a falsy node and the `Date`
mangling rule at a truthy node, at concrete inputs. -/
theorem coerce_shape_behavior_witness :
    coerce extModel (.arr [.num 1]) .null = .ok (.arr [.num 1]) ∧
    coerce extModel (.dateInst 5) (.obj [("a", .num 1)]) = .ok (.obj []) :=
  ⟨(coerce_shape_behavior extModel).1 (.arr [.num 1]) .null (by decide),
   (coerce_shape_behavior extModel).2.2.2.2.2.2 (.obj [("a", .num 1)]) 5 (by decide)⟩

theorem decide_str_inj (a b : String) :
    decide ((JSValue.str a) = .str b) = decide (a = b) := by
  simp [decide_eq_decide]

/-- C4 counterexample: `isDBRef` applied to `null` does not return
false — the `_bsontype` property read throws a TypeError, so the
predicate is not total. -/
theorem isDBRef_null_throws :
    isDBRef .null = .error "TypeError: Cannot read properties of null" ∧
    ∀ b, isDBRef .null ≠ .ok b := by decide

/-- C4 (amended): `isDate`, `isRegex` and `isUndefined` are total and
never fail; each predicate returns true on a freshly constructed
instance of its own type and false on instances of every other extended
type and on a plain object (without an own `_bsontype` field); but the
six tag-based predicates (`isDBRef`, `isMaxKey`, `isMinKey`, `isLong`,
`isObjectId`, `isTimestamp`) throw a TypeError on `null` and on
`undefined` (the Undefined instance) instead of returning false. -/
theorem type_predicates_behavior :
    (∀ v, ∃ b, isDate v = .ok b) ∧
    (∀ v, ∃ b, isRegex v = .ok b) ∧
    (∀ v, ∃ b, isUndefined v = .ok b) ∧
    (∀ ms, isDate (.dateInst ms) = .ok true ∧ isRegex (.dateInst ms) = .ok false ∧
      isUndefined (.dateInst ms) = .ok false ∧ isDBRef (.dateInst ms) = .ok false ∧
      isMaxKey (.dateInst ms) = .ok false ∧ isMinKey (.dateInst ms) = .ok false ∧
      isLong (.dateInst ms) = .ok false ∧ isObjectId (.dateInst ms) = .ok false ∧
      isTimestamp (.dateInst ms) = .ok false) ∧
    (∀ src fl, isRegex (.regexInst src fl) = .ok true ∧
      isDate (.regexInst src fl) = .ok false ∧ isUndefined (.regexInst src fl) = .ok false ∧
      isDBRef (.regexInst src fl) = .ok false ∧ isMaxKey (.regexInst src fl) = .ok false ∧
      isMinKey (.regexInst src fl) = .ok false ∧ isLong (.regexInst src fl) = .ok false ∧
      isObjectId (.regexInst src fl) = .ok false ∧
      isTimestamp (.regexInst src fl) = .ok false) ∧
    (∀ tag fs, isDate (.bsonInst tag fs) = .ok false ∧
      isRegex (.bsonInst tag fs) = .ok false ∧ isUndefined (.bsonInst tag fs) = .ok false ∧
      isDBRef (.bsonInst tag fs) = .ok (decide (tag = "DBRef")) ∧
      isMaxKey (.bsonInst tag fs) = .ok (decide (tag = "MaxKey")) ∧
      isMinKey (.bsonInst tag fs) = .ok (decide (tag = "MinKey")) ∧
      isLong (.bsonInst tag fs) = .ok (decide (tag = "Long")) ∧
      isObjectId (.bsonInst tag fs) = .ok (decide (tag = "ObjectID")) ∧
      isTimestamp (.bsonInst tag fs) = .ok (decide (tag = "Timestamp"))) ∧
    (∀ fs, isDBRef (.bsonInst "DBRef" fs) = .ok true ∧
      isMaxKey (.bsonInst "MaxKey" fs) = .ok true ∧
      isMinKey (.bsonInst "MinKey" fs) = .ok true ∧
      isLong (.bsonInst "Long" fs) = .ok true ∧
      isObjectId (.bsonInst "ObjectID" fs) = .ok true ∧
      isTimestamp (.bsonInst "Timestamp" fs) = .ok true) ∧
    (isUndefined .undefined = .ok true ∧ isDate .undefined = .ok false ∧
      isRegex .undefined = .ok false ∧ isDate .null = .ok false ∧ isRegex .null = .ok false ∧
      isUndefined .null = .ok false) ∧
    (isDate (.obj []) = .ok false ∧ isRegex (.obj []) = .ok false ∧
      isUndefined (.obj []) = .ok false ∧ isDBRef (.obj []) = .ok false ∧
      isMaxKey (.obj []) = .ok false ∧ isMinKey (.obj []) = .ok false ∧
      isLong (.obj []) = .ok false ∧ isObjectId (.obj []) = .ok false ∧
      isTimestamp (.obj []) = .ok false) ∧
    (isDBRef .null = .error "TypeError: Cannot read properties of null" ∧
      isMaxKey .null = .error "TypeError: Cannot read properties of null" ∧
      isMinKey .null = .error "TypeError: Cannot read properties of null" ∧
      isLong .null = .error "TypeError: Cannot read properties of null" ∧
      isObjectId .null = .error "TypeError: Cannot read properties of null" ∧
      isTimestamp .null = .error "TypeError: Cannot read properties of null" ∧
      isDBRef .undefined = .error "TypeError: Cannot read properties of undefined" ∧
      isMaxKey .undefined = .error "TypeError: Cannot read properties of undefined" ∧
      isMinKey .undefined = .error "TypeError: Cannot read properties of undefined" ∧
      isLong .undefined = .error "TypeError: Cannot read properties of undefined" ∧
      isObjectId .undefined = .error "TypeError: Cannot read properties of undefined" ∧
      isTimestamp .undefined = .error "TypeError: Cannot read properties of undefined") := by
  refine ⟨fun v => ⟨_, rfl⟩, fun v => ⟨_, rfl⟩, fun v => ⟨_, rfl⟩, ?_, ?_, ?_, ?_,
    by decide, by decide, by decide⟩
  · intro ms
    exact ⟨rfl, rfl, rfl, rfl, rfl, rfl, rfl, rfl, rfl⟩
  · intro src fl
    exact ⟨rfl, rfl, rfl, rfl, rfl, rfl, rfl, rfl, rfl⟩
  · intro tag fs
    refine ⟨rfl, rfl, rfl, ?_, ?_, ?_, ?_, ?_, ?_⟩ <;>
      simp [isDBRef, isMaxKey, isMinKey, isLong, isObjectId, isTimestamp, bsontypeOf,
        getProp, Except.map, decide_str_inj]
  · intro fs
    refine ⟨?_, ?_, ?_, ?_, ?_, ?_⟩ <;>
      simp +decide [isDBRef, isMaxKey, isMinKey, isLong, isObjectId, isTimestamp, bsontypeOf,
        getProp, Except.map]

/-- C6: the `ejsonSchemas` catalog agrees with the table in spec
section 4.2: each listed fragment is an object schema requiring exactly
its one tag key, the tag value constraints are as stated (string-typed
tags for Date, DBRef, Long, ObjectId, Regex; `$maxKey` and `$minKey`
numbers that must equal exactly 1; `$undefined` a boolean; `$timestamp`
an object with `t` and `i` numbers and no additional keys; `$id`
unconstrained and optional on DBRef; `$options` an optional string on
Regex), and every fragment sets `additionalProperties` to false. -/
theorem ejsonSchemas_match_table :
    lookupF ejsonSchemas "Date" = some dateSchemaJ ∧
    lookupF ejsonSchemas "DBRef" = some dbrefSchemaJ ∧
    lookupF ejsonSchemas "MaxKey" = some maxKeySchemaJ ∧
    lookupF ejsonSchemas "MinKey" = some minKeySchemaJ ∧
    lookupF ejsonSchemas "Long" = some longSchemaJ ∧
    lookupF ejsonSchemas "ObjectId" = some objectIdSchemaJ ∧
    lookupF ejsonSchemas "Regex" = some regexSchemaJ ∧
    lookupF ejsonSchemas "Timestamp" = some timestampSchemaJ ∧
    lookupF ejsonSchemas "Undefined" = some undefinedSchemaJ ∧
    (getProp dateSchemaJ "type" = .str "object" ∧
      getProp dateSchemaJ "required" = .arr [.str "$date"] ∧
      getProp (getProp dateSchemaJ "properties") "$date" = .obj [("type", .str "string")] ∧
      getProp dateSchemaJ "additionalProperties" = .bool false) ∧
    (getProp dbrefSchemaJ "type" = .str "object" ∧
      getProp dbrefSchemaJ "required" = .arr [.str "$ref"] ∧
      getProp (getProp dbrefSchemaJ "properties") "$ref" = .obj [("type", .str "string")] ∧
      getProp (getProp dbrefSchemaJ "properties") "$id" = .obj [] ∧
      getProp dbrefSchemaJ "additionalProperties" = .bool false) ∧
    (∀ (fuel : Nat) (v : JSValue), validateJS (fuel + 1) (.obj []) v = true) ∧
    (getProp maxKeySchemaJ "type" = .str "object" ∧
      getProp maxKeySchemaJ "required" = .arr [.str "$maxKey"] ∧
      getProp maxKeySchemaJ "additionalProperties" = .bool false) ∧
    (∀ (fuel : Nat) (n : Int),
      (validateJS (fuel + 1) (getProp (getProp maxKeySchemaJ "properties") "$maxKey")
          (.num n) = true) ↔ n = 1) ∧
    (getProp minKeySchemaJ "type" = .str "object" ∧
      getProp minKeySchemaJ "required" = .arr [.str "$minKey"] ∧
      getProp minKeySchemaJ "additionalProperties" = .bool false) ∧
    (∀ (fuel : Nat) (n : Int),
      (validateJS (fuel + 1) (getProp (getProp minKeySchemaJ "properties") "$minKey")
          (.num n) = true) ↔ n = 1) ∧
    (getProp longSchemaJ "type" = .str "object" ∧
      getProp longSchemaJ "required" = .arr [.str "$numberLong"] ∧
      getProp (getProp longSchemaJ "properties") "$numberLong"
        = .obj [("type", .str "string")] ∧
      getProp longSchemaJ "additionalProperties" = .bool false) ∧
    (getProp objectIdSchemaJ "type" = .str "object" ∧
      getProp objectIdSchemaJ "required" = .arr [.str "$oid"] ∧
      getProp (getProp objectIdSchemaJ "properties") "$oid" = .obj [("type", .str "string")] ∧
      getProp objectIdSchemaJ "additionalProperties" = .bool false) ∧
    (getProp regexSchemaJ "type" = .str "object" ∧
      getProp regexSchemaJ "required" = .arr [.str "$regex"] ∧
      getProp (getProp regexSchemaJ "properties") "$regex" = .obj [("type", .str "string")] ∧
      getProp (getProp regexSchemaJ "properties") "$options"
        = .obj [("type", .str "string")] ∧
      getProp regexSchemaJ "additionalProperties" = .bool false) ∧
    (getProp timestampSchemaJ "type" = .str "object" ∧
      getProp timestampSchemaJ "required" = .arr [.str "$timestamp"] ∧
      getProp (getProp timestampSchemaJ "properties") "$timestamp" = timestampInnerSchemaJ ∧
      getProp timestampInnerSchemaJ "type" = .str "object" ∧
      getProp (getProp timestampInnerSchemaJ "properties") "t"
        = .obj [("type", .str "number")] ∧
      getProp (getProp timestampInnerSchemaJ "properties") "i"
        = .obj [("type", .str "number")] ∧
      getProp timestampInnerSchemaJ "additionalProperties" = .bool false ∧
      getProp timestampSchemaJ "additionalProperties" = .bool false) ∧
    (getProp undefinedSchemaJ "type" = .str "object" ∧
      getProp undefinedSchemaJ "required" = .arr [.str "$undefined"] ∧
      getProp (getProp undefinedSchemaJ "properties") "$undefined"
        = .obj [("type", .str "boolean")] ∧
      getProp undefinedSchemaJ "additionalProperties" = .bool false) := by
  refine ⟨by decide, by decide, by decide, by decide, by decide, by decide, by decide,
    by decide, by decide, by decide, by decide, ?_, by decide, ?_, by decide, ?_,
    by decide, by decide, by decide, by decide, by decide⟩
  · intro fuel v
    cases v <;> simp [validateJS, lookupF]
  · intro fuel n
    simp [validateJS, lookupF, typeMatches, getProp, maxKeySchemaJ]
    omega
  · intro fuel n
    simp [validateJS, lookupF, typeMatches, getProp, minKeySchemaJ]
    omega

/-- C1: with an engine honouring the documented contract (a false
validation result leaves a nonempty error list), every `validate` call
either succeeds, returns the ordinary failure result carrying exactly
the first reported issue message (never an exception), or throws the one
wrapped descriptive error whose message embeds the serialized rewritten
schema, the serialized document and the underlying reason; the `error`
field is present exactly when `valid` is false; and an invalid rewritten
schema or an engine exception always lands in the wrapped channel. -/
theorem validate_two_error_channels (E : Engine) (obj schema : JSValue)
    (hE : ∀ o s b errs, E.runValidate o s = .ok (b, errs) → b = false → errs ≠ []) :
    (validate E obj schema = .ok ⟨true, none⟩ ∨
     (∃ m rest, E.runValidate obj (toJSONSchema schema) = .ok (false, m :: rest) ∧
         validate E obj schema = .ok ⟨false, some m⟩) ∨
     (∃ reason,
         validate E obj schema = .error (.wrapped (wrapMsg (toJSONSchema schema) obj reason)))) ∧
    (∀ r, validate E obj schema = .ok r → (r.error.isSome ↔ r.valid = false)) ∧
    (E.validateSchema (toJSONSchema schema) = .ok false →
      validate E obj schema
        = .error (.wrapped (wrapMsg (toJSONSchema schema) obj "Invalid schema."))) ∧
    (∀ e, E.validateSchema (toJSONSchema schema) = .error e →
      validate E obj schema = .error (.wrapped (wrapMsg (toJSONSchema schema) obj e))) ∧
    (∀ e, E.validateSchema (toJSONSchema schema) = .ok true →
      E.runValidate obj (toJSONSchema schema) = .error e →
      validate E obj schema = .error (.wrapped (wrapMsg (toJSONSchema schema) obj e))) := by
  refine ⟨?_, ?_, ?_, ?_, ?_⟩
  · rcases validate_channel_cases E obj schema with h | h | h | h
    · exact Or.inl h
    · exact Or.inr (Or.inl h)
    · exact Or.inr (Or.inr h)
    · exact absurd rfl (hE obj (toJSONSchema schema) false [] h.1 rfl)
  · intro r hr
    rcases validate_channel_cases E obj schema with h | ⟨m, rest, _, h⟩ | ⟨reason, h⟩ | ⟨_, h⟩
    · rw [hr] at h
      cases h
      simp
    · rw [hr] at h
      cases h
      simp
    · rw [hr] at h
      cases h
    · rw [hr] at h
      cases h
  · intro hs
    simp [validate, hs]
  · intro e hs
    simp [validate, hs]
  · intro e hs hr
    simp [validate, hs, hr]

/-- A contract-honouring engine that always reports one failure, used to
instantiate the C1 theorem. -/
def engineW : Engine :=
  ⟨fun _ => .ok true, fun _ _ => .ok (false, ["boom"])⟩

/-- C1 witness: the theorem applied to a concrete contract-honouring
engine, document and schema. -/
theorem validate_two_error_channels_witness :
    (validate engineW (.num 1) (.obj [("type", .str "MaxKey")]) = .ok ⟨true, none⟩ ∨
     (∃ m rest, engineW.runValidate (.num 1) (toJSONSchema (.obj [("type", .str "MaxKey")]))
           = .ok (false, m :: rest) ∧
         validate engineW (.num 1) (.obj [("type", .str "MaxKey")]) = .ok ⟨false, some m⟩) ∨
     (∃ reason,
         validate engineW (.num 1) (.obj [("type", .str "MaxKey")])
           = .error (.wrapped
               (wrapMsg (toJSONSchema (.obj [("type", .str "MaxKey")])) (.num 1) reason)))) ∧
    (∀ r, validate engineW (.num 1) (.obj [("type", .str "MaxKey")]) = .ok r →
      (r.error.isSome ↔ r.valid = false)) ∧
    (engineW.validateSchema (toJSONSchema (.obj [("type", .str "MaxKey")])) = .ok false →
      validate engineW (.num 1) (.obj [("type", .str "MaxKey")])
        = .error (.wrapped (wrapMsg (toJSONSchema (.obj [("type", .str "MaxKey")])) (.num 1)
            "Invalid schema."))) ∧
    (∀ e, engineW.validateSchema (toJSONSchema (.obj [("type", .str "MaxKey")])) = .error e →
      validate engineW (.num 1) (.obj [("type", .str "MaxKey")])
        = .error (.wrapped (wrapMsg (toJSONSchema (.obj [("type", .str "MaxKey")])) (.num 1)
            e))) ∧
    (∀ e, engineW.validateSchema (toJSONSchema (.obj [("type", .str "MaxKey")])) = .ok true →
      engineW.runValidate (.num 1) (toJSONSchema (.obj [("type", .str "MaxKey")]))
        = .error e →
      validate engineW (.num 1) (.obj [("type", .str "MaxKey")])
        = .error (.wrapped (wrapMsg (toJSONSchema (.obj [("type", .str "MaxKey")])) (.num 1)
            e))) :=
  validate_two_error_channels engineW (.num 1) (.obj [("type", .str "MaxKey")])
    (by
      intro o s b errs h hb
      simp only [engineW] at h
      cases h
      simp)

/-- An engine that reports a false validation result with an empty error
list, violating the documented engine contract. -/
def engineEmptyErrors : Engine :=
  ⟨fun _ => .ok true, fun _ _ => .ok (false, [])⟩

/-- C9: the first-error extraction runs outside the try/catch.  Under
the engine precondition (false results populate at least one error)
every `validate` call returns valid, returns invalid with a string
message, or throws the wrapped descriptive error; but an engine
returning false with an empty error list makes `validate` throw the
TypeError from reading `[0].message` of an empty list — an error that is
not the wrapped descriptive error, hence outside both documented
channels. -/
theorem validate_empty_error_list_escape :
    (∀ (E : Engine) (obj schema : JSValue),
      (∀ o s b errs, E.runValidate o s = .ok (b, errs) → b = false → errs ≠ []) →
      validate E obj schema = .ok ⟨true, none⟩ ∨
      (∃ m, validate E obj schema = .ok ⟨false, some m⟩) ∨
      (∃ msg, validate E obj schema = .error (.wrapped msg))) ∧
    (∀ obj schema, validate engineEmptyErrors obj schema = .error .typeErrorEmptyErrors) ∧
    (∀ msg, VError.typeErrorEmptyErrors ≠ .wrapped msg) := by
  refine ⟨?_, ?_, by intro msg h; cases h⟩
  · intro E obj schema hE
    rcases validate_channel_cases E obj schema with h | ⟨m, rest, _, h⟩ | ⟨reason, h⟩ | h
    · exact Or.inl h
    · exact Or.inr (Or.inl ⟨m, h⟩)
    · exact Or.inr (Or.inr ⟨_, h⟩)
    · exact absurd rfl (hE obj (toJSONSchema schema) false [] h.1 rfl)
  · intro obj schema
    simp [validate, engineEmptyErrors]

/-- C9 witness: the trichotomy applied to a concrete contract-honouring
engine, and the unwrapped escape at a concrete document and schema. -/
theorem validate_empty_error_list_escape_witness :
    (validate engineW (.bool true) .null = .ok ⟨true, none⟩ ∨
     (∃ m, validate engineW (.bool true) .null = .ok ⟨false, some m⟩) ∨
     (∃ msg, validate engineW (.bool true) .null = .error (.wrapped msg))) ∧
    validate engineEmptyErrors (.bool true) .null = .error .typeErrorEmptyErrors :=
  ⟨validate_empty_error_list_escape.1 engineW (.bool true) .null
     (by
       intro o s b errs h hb
       simp only [engineW] at h
       cases h
       simp),
   validate_empty_error_list_escape.2.1 (.bool true) .null⟩

end EJSONSpec
